import Mathlib

/-! # FMOE `correct` front end

A shallow embedding of `src/FMOE/correct.cpp` (option parsing, k-mer parameter
learning, k-mer sampling and the serial/parallel dispatch of `correctMain`)
together with the declarations of `src/Algorithm/ErrorCorrectProcess.h` that
the front end uses.

Conventions of the embedding.
* `int` variables are `Int`, `unsigned int` variables are `Nat` (the one
  arithmetic operation on an unsigned variable, `verbose++`, is reduced
  modulo `2^32`), `double` variables are `Rat`, `std::string` is `String`
  for option text and `List Char` for sampled sequences.
* `exit(status)` is a value of the result type, not an effect.
* Text written to `std::cout` and `std::cerr` is recorded as a list of
  messages in emission order.
* Library code that is not part of the repository sources (the C++ stream
  extraction operators, `getopt_long`, `stripFilename`, the FM-index
  queries, the `KmerDistribution` queries) is passed in as a parameter.
-/

namespace FMOE

/-! ## `ErrorCorrectProcess.h` -/

/-- The enumeration `ErrorCorrectAlgorithm`. -/
inductive ErrorCorrectAlgorithm
  | ECA_HYBRID
  | ECA_KMER
  | ECA_OVERLAP
  | ECA_THREAD
  | ECA_FMEXTEND
  deriving DecidableEq, Repr

open ErrorCorrectAlgorithm

/-! ## Process status and messages -/

/-- The value of `EXIT_SUCCESS`. -/
def EXIT_SUCCESS : Int := 0

/-- The value of `EXIT_FAILURE`. -/
def EXIT_FAILURE : Int := 1

/-- What `parseCorrectOptions` writes to `std::cout`. -/
inductive CoutMsg
  | newline
  | usageMessage
  | versionMessage
  deriving DecidableEq, Repr

/-- What `parseCorrectOptions` writes to `std::cerr`: one constructor per
diagnostic, carrying the value that is printed with it. -/
inductive CerrMsg
  | missingArguments
  | tooManyArguments
  | invalidThreads (n : Int)
  | invalidOverlapRounds (n : Int)
  | invalidKmerRounds (n : Int)
  | invalidKmerLength (n : Int)
  | invalidCheckKmerLength (n : Int)
  | invalidKmerThreshold (n : Int)
  | unrecognizedAlgorithm (s : String)
  | invalidErrorRate (r : Rat)
  | invalidKmerSupportThreshold (n : Int)
  deriving DecidableEq, Repr

/-! ## The `opt` namespace of `correct.cpp` -/

/-- The static variables of `namespace opt`. The C++ variable named
`prefix` is the field `prefixName`. -/
structure Opt where
  verbose : Nat
  numThreads : Int
  numOverlapRounds : Int
  prefixName : String
  readsFile : String
  outFile : String
  discardFile : String
  metricsFile : String
  sampleRate : Int
  peReadsFile : String
  errorRate : Rat
  minOverlap : Nat
  seedLength : Int
  seedStride : Int
  conflictCutoff : Int
  branchCutoff : Int
  kmerLength : Int
  check_kmerLength : Int
  kmerThreshold : Int
  numKmerRounds : Int
  bLearnKmerParams : Bool
  diploid : Bool
  algorithm : ErrorCorrectAlgorithm
  deriving DecidableEq, Repr

/-- The static initialisers of `namespace opt`. The two constants defined in
headers outside the sources, `BWT::DEFAULT_SAMPLE_RATE_SMALL` and
`DEFAULT_MIN_OVERLAP`, are arguments. -/
def Opt.initial (DEFAULT_SAMPLE_RATE_SMALL : Int) (DEFAULT_MIN_OVERLAP : Nat) : Opt where
  verbose := 0
  numThreads := 1
  numOverlapRounds := 1
  prefixName := ""
  readsFile := ""
  outFile := ""
  discardFile := ""
  metricsFile := ""
  sampleRate := DEFAULT_SAMPLE_RATE_SMALL
  peReadsFile := ""
  errorRate := mkRat 4 100
  minOverlap := DEFAULT_MIN_OVERLAP
  seedLength := 0
  seedStride := 0
  conflictCutoff := 3
  branchCutoff := -1
  kmerLength := 31
  check_kmerLength := 7
  kmerThreshold := 3
  numKmerRounds := 10
  bLearnKmerParams := false
  diploid := false
  algorithm := ECA_FMEXTEND

/-- The values of the anonymous enumeration of long-only options, as the
`char` that `getopt_long` returns for them. -/
def OPT_HELP : Char := Char.ofNat 1

/-- The long-only option `--version`. -/
def OPT_VERSION : Char := Char.ofNat 2

/-- The long-only option `--metrics`. -/
def OPT_METRICS : Char := Char.ofNat 3

/-- The long-only option `--discard`. -/
def OPT_DISCARD : Char := Char.ofNat 4

/-- The long-only option `--learn`. -/
def OPT_LEARN : Char := Char.ofNat 5

/-- The long-only option `--diploid`. -/
def OPT_DIPLOID : Char := Char.ofNat 6

/-- The table `longopts`: long option name and the value `getopt_long`
returns for it. -/
def longopts : List (String × Char) :=
  [ ("verbose", 'v'), ("threads", 't'), ("min-overlap", 'm'), ("rounds", 'r'),
    ("outfile", 'o'), ("prefix", 'p'), ("error-rate", 'e'), ("seed-length", 'l'),
    ("seed-stride", 's'), ("algorithm", 'a'), ("sample-rate", 'd'), ("conflict", 'c'),
    ("branch-cutoff", 'b'), ("kmer-size", 'k'), ("check-kmer-size", 'K'),
    ("kmer-threshold", 'x'), ("kmer-rounds", 'i'), ("learn", OPT_LEARN),
    ("discard", OPT_DISCARD), ("help", OPT_HELP), ("version", OPT_VERSION),
    ("metrics", OPT_METRICS), ("diploid", OPT_DIPLOID) ]

/-- One iteration of the `getopt_long` loop as the switch sees it: the
returned character `c` and the value of `optarg` (`none` for `NULL`). -/
structure GetoptResult where
  c : Char
  optarg : Option String
  deriving DecidableEq, Repr

/-- Library routines used by `parseCorrectOptions` that live outside the
sources: `operator>>` of `std::istringstream` into an `int`, an
`unsigned int`, a `double` and a `std::string` (text of the stream and
previous value of the target give the new value of the target), and
`stripFilename` of `Util.h`. -/
structure StdLib where
  extractInt : String → Int → Int
  extractUnsigned : String → Nat → Nat
  extractDouble : String → Rat → Rat
  extractString : String → String → String
  stripFilename : String → String

/-- The local variables of `parseCorrectOptions` together with `opt`. -/
structure ParseState where
  opt : Opt
  algo_str : String
  bDiscardReads : Bool
  die : Bool
  deriving DecidableEq, Repr

/-- A call of `exit` and what had been written to `std::cout` and
`std::cerr` before it. -/
structure ExitCall where
  status : Int
  cout : List CoutMsg
  cerr : List CerrMsg
  deriving DecidableEq, Repr

/-- The body of the `switch (c)` statement for one option. `arg` is the
text of the `istringstream` built from `optarg`. A character without a
`case` falls through the switch unchanged. -/
def optionSwitch (lib : StdLib) (st : ParseState) (c : Char) (arg : String) :
    Except ExitCall ParseState :=
  let o := st.opt
  if c = 'm' then .ok { st with opt := { o with minOverlap := lib.extractUnsigned arg o.minOverlap } }
  else if c = 'p' then .ok { st with opt := { o with prefixName := lib.extractString arg o.prefixName } }
  else if c = 'o' then .ok { st with opt := { o with outFile := lib.extractString arg o.outFile } }
  else if c = 'e' then .ok { st with opt := { o with errorRate := lib.extractDouble arg o.errorRate } }
  else if c = 't' then .ok { st with opt := { o with numThreads := lib.extractInt arg o.numThreads } }
  else if c = 'l' then .ok { st with opt := { o with seedLength := lib.extractInt arg o.seedLength } }
  else if c = 's' then .ok { st with opt := { o with seedStride := lib.extractInt arg o.seedStride } }
  else if c = 'r' then .ok { st with opt := { o with numOverlapRounds := lib.extractInt arg o.numOverlapRounds } }
  else if c = 'a' then .ok { st with algo_str := lib.extractString arg st.algo_str }
  else if c = 'd' then .ok { st with opt := { o with sampleRate := lib.extractInt arg o.sampleRate } }
  else if c = 'c' then .ok { st with opt := { o with conflictCutoff := lib.extractInt arg o.conflictCutoff } }
  else if c = 'k' then .ok { st with opt := { o with kmerLength := lib.extractInt arg o.kmerLength } }
  else if c = 'K' then .ok { st with opt := { o with check_kmerLength := lib.extractInt arg o.check_kmerLength } }
  else if c = 'x' then .ok { st with opt := { o with kmerThreshold := lib.extractInt arg o.kmerThreshold } }
  else if c = '?' then .ok { st with die := true }
  else if c = 'v' then .ok { st with opt := { o with verbose := (o.verbose + 1) % 2 ^ 32 } }
  else if c = 'b' then .ok { st with opt := { o with branchCutoff := lib.extractInt arg o.branchCutoff } }
  else if c = 'i' then .ok { st with opt := { o with numKmerRounds := lib.extractInt arg o.numKmerRounds } }
  else if c = OPT_LEARN then .ok { st with opt := { o with bLearnKmerParams := true } }
  else if c = OPT_DISCARD then .ok { st with bDiscardReads := true }
  else if c = OPT_METRICS then .ok { st with opt := { o with metricsFile := lib.extractString arg o.metricsFile } }
  else if c = OPT_DIPLOID then .ok { st with opt := { o with diploid := true } }
  else if c = OPT_HELP then .error ⟨EXIT_SUCCESS, [CoutMsg.usageMessage], []⟩
  else if c = OPT_VERSION then .error ⟨EXIT_SUCCESS, [CoutMsg.versionMessage], []⟩
  else .ok st

/-- The loop `for (char c; (c = getopt_long(...)) != -1;)` over the
successive results of `getopt_long`. -/
def optionLoop (lib : StdLib) : ParseState → List GetoptResult → Except ExitCall ParseState
  | st, [] => .ok st
  | st, g :: rest =>
    match optionSwitch lib st g.c (g.optarg.getD "") with
    | .error e => .error e
    | .ok st1 => optionLoop lib st1 rest

/-- The checks on `argc - optind`, the number of arguments left after the
options. -/
def checkArgumentCount (remaining : Int) (die : Bool) (cerr : List CerrMsg) :
    Bool × List CerrMsg :=
  if remaining < 1 then (true, cerr ++ [CerrMsg.missingArguments])
  else if remaining > 1 then (true, cerr ++ [CerrMsg.tooManyArguments])
  else (die, cerr)

/-- One block `if (value <= 0) ... die = true;`. -/
def checkPositive (value : Int) (msg : Int → CerrMsg) (dc : Bool × List CerrMsg) :
    Bool × List CerrMsg :=
  if value ≤ 0 then (true, dc.2 ++ [msg value]) else dc

/-- The block "Determine the correction algorithm to use": the new value
of `opt::algorithm`, of `die` and of the `std::cerr` log. -/
def determineAlgorithm (algo_str : String) (algorithm : ErrorCorrectAlgorithm)
    (dc : Bool × List CerrMsg) : ErrorCorrectAlgorithm × Bool × List CerrMsg :=
  if algo_str ≠ "" then
    if algo_str = "hybrid" then (ECA_HYBRID, dc)
    else if algo_str = "kmer" then (ECA_KMER, dc)
    else if algo_str = "overlap" then (ECA_OVERLAP, dc)
    else if algo_str = "fmextend" then (ECA_FMEXTEND, dc)
    else (algorithm, true, dc.2 ++ [CerrMsg.unrecognizedAlgorithm algo_str])
  else (algorithm, dc)

/-- The six range checks and the algorithm selection, in source order,
starting from the value of `die` left by the option loop. -/
def validateOptions (positionalCount : Nat) (st : ParseState) :
    ErrorCorrectAlgorithm × Bool × List CerrMsg :=
  let o := st.opt
  let dc := checkArgumentCount positionalCount st.die []
  let dc := checkPositive o.numThreads CerrMsg.invalidThreads dc
  let dc := checkPositive o.numOverlapRounds CerrMsg.invalidOverlapRounds dc
  let dc := checkPositive o.numKmerRounds CerrMsg.invalidKmerRounds dc
  let dc := checkPositive o.kmerLength CerrMsg.invalidKmerLength dc
  let dc := checkPositive o.check_kmerLength CerrMsg.invalidCheckKmerLength dc
  let dc := checkPositive o.kmerThreshold CerrMsg.invalidKmerThreshold dc
  determineAlgorithm st.algo_str o.algorithm dc

/-- The result of `parseCorrectOptions`: either it called `exit`, or it
returned, leaving `opt` and the base minimum support of the
`CorrectionThresholds` singleton set. -/
inductive ParseResult
  | exited (e : ExitCall)
  | returned (opt : Opt) (baseMinSupport : Int) (cerr : List CerrMsg)
  deriving DecidableEq, Repr

/-- The block "Validate parameters" up to the error-rate exit: a
non-positive `errorRate` becomes `0`. -/
def clampErrorRate (o : Opt) : Opt :=
  if o.errorRate ≤ 0 then { o with errorRate := 0 } else o

/-- The two adjustments of `seedLength` and `seedStride`. -/
def adjustSeed (o : Opt) : Opt :=
  let o := if o.seedLength < 0 then { o with seedLength := 0 } else o
  if o.seedLength > 0 ∧ o.seedStride ≤ 0 then { o with seedStride := o.seedLength } else o

/-- The block "Parse the input filenames": `readsFile = argv[optind++]` and
the default of `prefix`. -/
def setInputFiles (lib : StdLib) (positional : List String) (o : Opt) : Opt :=
  let o := { o with readsFile := positional.headD "" }
  if o.prefixName = "" then { o with prefixName := lib.stripFilename o.readsFile } else o

/-- The defaults of `outFile` and `discardFile` at the end of the function. -/
def setOutputFiles (lib : StdLib) (bDiscardReads : Bool) (o : Opt) : Opt :=
  let out_prefix := lib.stripFilename o.readsFile
  let o := if o.outFile = "" then { o with outFile := out_prefix ++ ".ec.fa" } else o
  if bDiscardReads then { o with discardFile := out_prefix ++ ".discard.fa" }
  else { o with discardFile := "" }

/-- The part of `parseCorrectOptions` after the `if (die)` block, from
"Validate parameters" to the end. `positional` are the arguments from
`argv[optind]` on. -/
def finishOptions (lib : StdLib) (o : Opt) (bDiscardReads : Bool) (positional : List String)
    (cerr : List CerrMsg) : ParseResult :=
  if (clampErrorRate o).errorRate > 1 then
    .exited ⟨EXIT_FAILURE, [], cerr ++ [CerrMsg.invalidErrorRate (clampErrorRate o).errorRate]⟩
  else if (setInputFiles lib positional (adjustSeed (clampErrorRate o))).kmerThreshold ≤ 0 then
    .exited ⟨EXIT_FAILURE, [], cerr ++ [CerrMsg.invalidKmerSupportThreshold
      (setInputFiles lib positional (adjustSeed (clampErrorRate o))).kmerThreshold]⟩
  else
    .returned (setOutputFiles lib bDiscardReads
        (setInputFiles lib positional (adjustSeed (clampErrorRate o))))
      (setInputFiles lib positional (adjustSeed (clampErrorRate o))).kmerThreshold cerr

/-- The function `parseCorrectOptions`. The command line is given as
`getopt_long` presents it: the successive option results and the
positional arguments that remain at `argv[optind]`; `opt0` is the value of
the `opt` variables on entry. -/
def parseCorrectOptions (lib : StdLib) (opt0 : Opt) (options : List GetoptResult)
    (positional : List String) : ParseResult :=
  match optionLoop lib ⟨opt0, "", false, false⟩ options with
  | .error e => .exited e
  | .ok st =>
    match validateOptions positional.length st with
    | (algorithm, die, cerr) =>
      if die then
        .exited ⟨EXIT_FAILURE, [CoutMsg.newline, CoutMsg.usageMessage], cerr⟩
      else
        finishOptions lib { st.opt with algorithm := algorithm } st.bDiscardReads positional cerr

/-! ### A concrete library instance, for evaluating the parser -/

/-- The white-space characters of the classic locale, which formatted
extraction skips. -/
def isSpace (c : Char) : Bool :=
  c = ' ' || c = '\t' || c = '\n' || c = '\r' || c = Char.ofNat 11 || c = Char.ofNat 12

/-- The value of a decimal digit, if the character is one. -/
def digitValue (c : Char) : Option Nat :=
  if '0'.toNat ≤ c.toNat ∧ c.toNat ≤ '9'.toNat then some (c.toNat - '0'.toNat) else none

/-- Reads the leading decimal digits of a character list: the number read
so far, how many digits have been read, and the rest of the text. -/
def readDigits : List Char → Nat → Nat → Nat × Nat × List Char
  | [], acc, seen => (acc, seen, [])
  | c :: cs, acc, seen =>
    match digitValue c with
    | some d => readDigits cs (10 * acc + d) (seen + 1)
    | none => (acc, seen, c :: cs)

/-- An optional sign at the head of the text: whether it is a minus sign,
and the rest of the text. -/
def readSign : List Char → Bool × List Char
  | '-' :: cs => (true, cs)
  | '+' :: cs => (false, cs)
  | cs => (false, cs)

/-- The value of `INT_MAX` for a 32-bit `int`. -/
def INT_MAX : Int := 2 ^ 31 - 1

/-- The value of `INT_MIN` for a 32-bit `int`. -/
def INT_MIN : Int := -(2 ^ 31)

/-- The value of `UINT_MAX` for a 32-bit `unsigned int`. -/
def UINT_MAX : Nat := 2 ^ 32 - 1

/-- Extraction of a decimal `int` (C++11 rules): leading white space is
skipped; a text with nothing after the white space leaves the target
unchanged; a text without a digit after the optional sign stores zero; a
value out of range stores `INT_MAX` or `INT_MIN`. -/
def decimalInt (s : String) (old : Int) : Int :=
  match s.data.dropWhile isSpace with
  | [] => old
  | cs =>
    match readSign cs with
    | (negative, ds) =>
      match readDigits ds 0 0 with
      | (_, 0, _) => 0
      | (n, _, _) =>
        if negative then (if -(n : Int) < INT_MIN then INT_MIN else -(n : Int))
        else (if (n : Int) > INT_MAX then INT_MAX else (n : Int))

/-- Extraction of a decimal `unsigned int` (C++11 rules): as for `int`,
with a magnitude out of range stored as `UINT_MAX` and a minus sign
negating the magnitude modulo `2^32`. -/
def decimalUnsigned (s : String) (old : Nat) : Nat :=
  match s.data.dropWhile isSpace with
  | [] => old
  | cs =>
    match readSign cs with
    | (negative, ds) =>
      match readDigits ds 0 0 with
      | (_, 0, _) => 0
      | (n, _, _) =>
        if n > UINT_MAX then UINT_MAX
        else if negative then (2 ^ 32 - n) % 2 ^ 32
        else n

/-- The exponent part `e`, `e+` or `e-` followed by digits, if the text
starts with one: the signed exponent. Without such a part the exponent is
zero. -/
def readExponent : List Char → Int
  | c :: cs =>
    if c = 'e' ∨ c = 'E' then
      match readSign cs with
      | (negative, ds) =>
        match readDigits ds 0 0 with
        | (_, 0, _) => 0
        | (n, _, _) => if negative then -(n : Int) else (n : Int)
    else 0
  | [] => 0

/-- Extraction of a `double` written in decimal notation (optional sign,
digits, optional fraction, optional exponent), as the exact rational it
denotes: leading white space is skipped; a text with nothing after the
white space leaves the target unchanged; a text without a digit stores
zero. Rounding to the nearest `double` is not modelled. -/
def decimalDouble (s : String) (old : Rat) : Rat :=
  match s.data.dropWhile isSpace with
  | [] => old
  | cs =>
    match readSign cs with
    | (negative, ds) =>
      match readDigits ds 0 0 with
      | (whole, seenWhole, rest) =>
        match (match rest with
          | '.' :: fs => readDigits fs whole 0
          | _ => (whole, 0, rest)) with
        | (mantissa, seenFraction, rest1) =>
          if seenWhole + seenFraction = 0 then 0
          else
            let e : Int := readExponent rest1 - (seenFraction : Int)
            let magnitude : Rat :=
              if e < 0 then mkRat (mantissa : Int) (10 ^ e.natAbs)
              else mkRat ((mantissa : Int) * 10 ^ e.natAbs) 1
            if negative then -magnitude else magnitude

/-- Extraction of a `std::string`: leading white space is skipped and the
characters up to the next white space are stored; a text with nothing
after the white space leaves the target unchanged. -/
def firstWord (s : String) (old : String) : String :=
  match s.data.dropWhile isSpace with
  | [] => old
  | cs => String.mk (cs.takeWhile (fun c => !isSpace c))

/-- A library instance for evaluating the parser: the decimal extractors
above, and the identity in place of `stripFilename`, whose code is not
among the sources. -/
def plainLib : StdLib where
  extractInt := decimalInt
  extractUnsigned := decimalUnsigned
  extractDouble := decimalDouble
  extractString := firstWord
  stripFilename := fun s => s

/-! ## The FM-index and the k-mer histogram -/

/-- The queries of `BWTAlgorithms` used by the front end, for a fixed
index `pBWT`. `sampleRandomString` draws from the C library random number
generator, whose state has type `σ`; it returns the sampled string and the
generator state after the draw. -/
structure BWTQueries (σ : Type) where
  sampleRandomString : σ → List Char × σ
  countSequenceOccurrences : List Char → Int

/-- Modelled from the spec: the class `KmerDistribution`
(`KmerDistribution.h`) is not among the sources. The spec describes it as
the histogram into which the occurrence count of every k-mer window is
recorded; it is represented by the sequence of recorded values, in the
order of the calls of `add`. -/
structure KmerDistribution where
  added : List Int
  deriving DecidableEq, Repr

/-- The histogram of a freshly constructed `KmerDistribution`. -/
def KmerDistribution.empty : KmerDistribution := ⟨[]⟩

/-- Modelled from the spec: `KmerDistribution::add(count)` records one more
occurrence count. -/
def KmerDistribution.add (h : KmerDistribution) (count : Int) : KmerDistribution :=
  ⟨h.added ++ [count]⟩

/-- The queries of `KmerDistribution` that the front end calls and whose
code is not among the sources: `findErrorBoundaryByRatio`,
`getCumulativeProportionLEQ` and `getMedian` (the latter read after
`computeKDAttributes`). -/
structure KmerDistributionQueries where
  findErrorBoundaryByRatio : KmerDistribution → Rat → Int
  getCumulativeProportionLEQ : KmerDistribution → Int → Rat
  getMedian : KmerDistribution → Rat

/-- The call `s.substr(pos, len)` with `int` arguments converted to
`size_t`: a negative `pos` or a `pos` beyond the end throws
`std::out_of_range` (`none`); a negative `len` converts to a length larger
than any string and takes the whole remainder. -/
def substr (s : List Char) (pos len : Int) : Option (List Char) :=
  if pos < 0 ∨ pos > s.length then none
  else some (if len < 0 then s.drop pos.toNat else (s.drop pos.toNat).take len.toNat)

/-- The inner loop of the sampling code for one sampled string `s`:
`n = s.size(); nk = n - k + 1; for (j = 0; j < nk; ++j) add(count(s.substr(j, k)))`.
The result is `none` when `substr` throws. -/
def sampleWindows (count : List Char → Int) (k : Int) (s : List Char)
    (h : KmerDistribution) : Option KmerDistribution :=
  let n : Int := s.length
  let nk : Int := n - k + 1
  (List.range nk.toNat).foldlM
    (fun h (j : Nat) => (substr s (j : Int) k).map (fun kmer => h.add (count kmer))) h

/-- The constant `n_samples` of `correctMain` and `learnKmerParameters`. -/
def n_samples : Nat := 10000

/-- The outer loop `for (i = 0; i < n_samples; ++i)`, with the number of
iterations that remain as first argument. -/
def sampleLoop {σ : Type} (q : BWTQueries σ) (k : Int) :
    Nat → σ → KmerDistribution → Option (KmerDistribution × σ)
  | 0, rng, h => some (h, rng)
  | remaining + 1, rng, h =>
    match sampleWindows q.countSequenceOccurrences k (q.sampleRandomString rng).1 h with
    | none => none
    | some h1 => sampleLoop q k remaining (q.sampleRandomString rng).2 h1

/-- The sampling code that appears in both `correctMain` (lines 165-179)
and `learnKmerParameters` (lines 272-288): a fresh histogram filled from
`n_samples` sampled strings. -/
def sampleKmerDistribution {σ : Type} (q : BWTQueries σ) (k : Int) (rng : σ) :
    Option (KmerDistribution × σ) :=
  sampleLoop q k n_samples rng KmerDistribution.empty

/-! ### The sampling as the specification describes it -/

/-- The first `n` strings that the sampler returns from generator state
`rng`. -/
def drawSamples {σ : Type} (q : BWTQueries σ) : Nat → σ → List (List Char)
  | 0, _ => []
  | n + 1, rng => (q.sampleRandomString rng).1 :: drawSamples q n (q.sampleRandomString rng).2

/-- The state of the random number generator after exactly `n` calls of
the sampler from generator state `rng`. -/
def stateAfterDraws {σ : Type} (q : BWTQueries σ) : Nat → σ → σ
  | 0, rng => rng
  | n + 1, rng => stateAfterDraws q n (q.sampleRandomString rng).2

/-- The window `s[j..j+k)`. -/
def window (s : List Char) (j k : Nat) : List Char := (s.drop j).take k

/-- The values one sampled string contributes according to the
description: the occurrence counts of the windows `s[j..j+k)` for
`j = 0..n-k`, in order. -/
def windowCounts (count : List Char → Int) (k : Int) (s : List Char) : List Int :=
  (List.range ((s.length : Int) - k + 1).toNat).map (fun j => count (window s j k.toNat))

/-! ## `learnKmerParameters` -/

/-- How a function of the front end ends: it returns a value, it calls
`exit`, or an exception leaves it uncaught. -/
inductive Termination (α : Type)
  | returned (a : α)
  | exited (status : Int)
  | uncaught
  deriving DecidableEq, Repr

/-- What `learnKmerParameters` writes to `std::cout`. -/
inductive LearnCout
  | learningKmerParameters
  | distribution (h : KmerDistribution) (n : Int)
  | chosenThreshold (t : Int)
  | proportionRight (p : Rat)
  deriving DecidableEq, Repr

/-- What `learnKmerParameters` writes to `std::cerr`. -/
inductive LearnCerr
  | learningFailed
  | kmerTooHighOrCoverageLow
  | warningProportion (p : Rat)
  | warningKmerSizeOrCoverage
  | warningSuggestManual
  deriving DecidableEq, Repr

/-- The three lines of the warning printed when `cumulativeLEQ > 0.25f`. -/
def riskyChoiceWarning (cumulativeLEQ : Rat) : List LearnCerr :=
  [LearnCerr.warningProportion (1 - cumulativeLEQ), LearnCerr.warningKmerSizeOrCoverage,
   LearnCerr.warningSuggestManual]

/-- A run of `learnKmerParameters`. -/
structure LearnRun (σ : Type) where
  cout : List LearnCout
  cerr : List LearnCerr
  result : Termination Int
  rng : σ

/-- The function `learnKmerParameters`. `k` is `opt::kmerLength` and
`seeded` is the state of the random number generator after
`srand(time(0))`. The constant `0.25f` is the rational `1/4`. -/
def learnKmerParameters {σ : Type} (kd : KmerDistributionQueries) (q : BWTQueries σ)
    (k : Int) (seeded : σ) : LearnRun σ :=
  match sampleKmerDistribution q k seeded with
  | none => ⟨[LearnCout.learningKmerParameters], [], .uncaught, seeded⟩
  | some (kmerDistribution, rng) =>
    let cout := [LearnCout.learningKmerParameters, LearnCout.distribution kmerDistribution 75]
    let ratio : Rat := 2
    let chosenThreshold := kd.findErrorBoundaryByRatio kmerDistribution ratio
    let cumulativeLEQ := kd.getCumulativeProportionLEQ kmerDistribution chosenThreshold
    if chosenThreshold = -1 then
      ⟨cout, [LearnCerr.learningFailed, LearnCerr.kmerTooHighOrCoverageLow],
        .exited EXIT_FAILURE, rng⟩
    else
      let cout := cout ++ [LearnCout.chosenThreshold chosenThreshold,
        LearnCout.proportionRight (1 - cumulativeLEQ)]
      let cerr := if cumulativeLEQ > mkRat 1 4 then riskyChoiceWarning cumulativeLEQ else []
      ⟨cout, cerr, .returned chosenThreshold, rng⟩

/-! ## `correctMain` -/

/-- A loaded `BWT`, identified by the arguments of its constructor. -/
structure BWT where
  filename : String
  sampleRate : Int
  deriving DecidableEq, Repr

/-- A loaded `SampledSuffixArray` (always built with `SSA_FT_SAI`),
identified by its file name. -/
structure SampledSuffixArray where
  filename : String
  deriving DecidableEq, Repr

/-- The structure `BWTIndexSet`; a null pointer is `none`. -/
structure BWTIndexSet where
  pBWT : Option BWT
  pRBWT : Option BWT
  pSSA : Option SampledSuffixArray
  deriving DecidableEq, Repr

/-- The structure `ErrorCorrectParameters`. The two members of pointer
type that the front end does not load, `pOverlapper` and `pReadTable`, are
an address or `none` for `NULL`. -/
structure ErrorCorrectParameters where
  algorithm : ErrorCorrectAlgorithm
  pOverlapper : Option Nat
  indices : BWTIndexSet
  pReadTable : Option Nat
  minOverlap : Int
  numOverlapRounds : Int
  minIdentity : Rat
  conflictCutoff : Int
  depthFilter : Int
  numKmerRounds : Int
  kmerLength : Int
  check_kmerLength : Int
  solid_threshold : Int
  printOverlaps : Bool
  isDiploid : Bool
  deriving DecidableEq, Repr

/-- An `ErrorCorrectProcess` instance, identified by the argument `params`
of its constructor `ErrorCorrectProcess(const ErrorCorrectParameters params)`. -/
structure ErrorCorrectProcess where
  params : ErrorCorrectParameters
  deriving DecidableEq, Repr

/-- An `ErrorCorrectPostProcess` instance, identified by the arguments of
its constructor: the file behind the corrected writer, the file behind the
discard writer (`none` for `NULL`) and `bCollectMetrics`. -/
structure ErrorCorrectPostProcess where
  pCorrectedWriter : String
  pDiscardWriter : Option String
  bCollectMetrics : Bool
  deriving DecidableEq, Repr

/-- The call of `SequenceProcessFramework` that `correctMain` makes, with
its arguments. -/
inductive FrameworkCall
  | processSequencesSerial (readsFile : String) (processor : ErrorCorrectProcess)
      (postProcessor : ErrorCorrectPostProcess)
  | processSequencesParallel (readsFile : String) (processorVector : List ErrorCorrectProcess)
      (postProcessor : ErrorCorrectPostProcess)
  deriving DecidableEq, Repr

/-- The file name extensions `BWT_EXT`, `RBWT_EXT` and `SAI_EXT` of
`SGACommon.h`, which is not among the sources. -/
structure Extensions where
  BWT_EXT : String
  RBWT_EXT : String
  SAI_EXT : String

/-- The conversion of an `unsigned int` to a 32-bit `int`: values from
`2^31` on wrap to the negative numbers. -/
def unsignedToInt (n : Nat) : Int :=
  if n % 2 ^ 32 < 2 ^ 31 then ((n % 2 ^ 32 : Nat) : Int) else ((n % 2 ^ 32 : Nat) : Int) - 2 ^ 32

/-- The conversion `(int)` of a `double`: truncation towards zero. -/
def truncateToInt (r : Rat) : Int := Int.tdiv r.num r.den

/-- The loop that fills `processorVector`:
`for (i = 0; i < numThreads; ++i) push_back(new ErrorCorrectProcess(ecParams))`. -/
def makeProcessorVector (numThreads : Int) (ecParams : ErrorCorrectParameters) :
    List ErrorCorrectProcess :=
  (List.range numThreads.toNat).foldl (fun v _ => v ++ [ErrorCorrectProcess.mk ecParams]) []

/-- The choice between serial and parallel mode at the end of
`correctMain`. -/
def dispatch (numThreads : Int) (readsFile : String) (ecParams : ErrorCorrectParameters)
    (postProcessor : ErrorCorrectPostProcess) : FrameworkCall :=
  if numThreads ≤ 1 then
    .processSequencesSerial readsFile (ErrorCorrectProcess.mk ecParams) postProcessor
  else
    .processSequencesParallel readsFile (makeProcessorVector numThreads ecParams) postProcessor

/-- How `correctMain` ends. A completed run records the options in force,
the base minimum support held by `CorrectionThresholds`, the parameter
object, the post-processor, the framework call, the metrics file written
(if any) and the returned status. -/
inductive CorrectMainResult
  | parseExited (e : ExitCall)
  | learnExited (status : Int)
  | uncaught
  | completed (opt : Opt) (baseMinSupport : Int) (ecParams : ErrorCorrectParameters)
      (postProcessor : ErrorCorrectPostProcess) (call : FrameworkCall)
      (metricsFile : Option String) (status : Int)
  deriving DecidableEq, Repr

/-- The assignments to `ecParams` in `correctMain`. `ecParams0` is the
indeterminate value of the local variable at its declaration: the members
`pReadTable` and `depthFilter` are never assigned. -/
def setParameters (o : Opt) (indexSet : BWTIndexSet) (median : Rat)
    (ecParams0 : ErrorCorrectParameters) : ErrorCorrectParameters :=
  { ecParams0 with
    indices := indexSet
    solid_threshold := truncateToInt median
    pOverlapper := none
    algorithm := o.algorithm
    minOverlap := unsignedToInt o.minOverlap
    numOverlapRounds := o.numOverlapRounds
    minIdentity := 1 - o.errorRate
    conflictCutoff := o.conflictCutoff
    numKmerRounds := o.numKmerRounds
    kmerLength := o.kmerLength
    check_kmerLength := o.check_kmerLength
    printOverlaps := decide (o.verbose > 0)
    isDiploid := o.diploid }

/-- The block "Learn the parameters of the kmer corrector" of
`correctMain`: the base minimum support and generator state after it, or
the way the run ended inside `learnKmerParameters`. -/
def learnStep {σ : Type} (kd : KmerDistributionQueries) (q : BWTQueries σ) (o : Opt)
    (baseMinSupport : Int) (rng0 seeded : σ) : Except CorrectMainResult (Int × σ) :=
  if o.bLearnKmerParams then
    match (learnKmerParameters kd q o.kmerLength seeded).result with
    | .returned threshold =>
      .ok (if threshold ≠ -1 then threshold else baseMinSupport,
           (learnKmerParameters kd q o.kmerLength seeded).rng)
    | .exited status => .error (.learnExited status)
    | .uncaught => .error .uncaught
  else .ok (baseMinSupport, rng0)

/-- The part of `correctMain` after `parseCorrectOptions` has returned. -/
def correctAfterParse {σ : Type} (ext : Extensions) (kd : KmerDistributionQueries)
    (q : BWTQueries σ) (ecParams0 : ErrorCorrectParameters) (rng0 seeded : σ)
    (o : Opt) (baseMinSupport : Int) : CorrectMainResult :=
  let pBWT : BWT := ⟨o.prefixName ++ ext.BWT_EXT, o.sampleRate⟩
  let pRBWT : BWT := ⟨o.prefixName ++ ext.RBWT_EXT, o.sampleRate⟩
  let pSSA : Option SampledSuffixArray :=
    if o.algorithm = ECA_OVERLAP ∨ o.algorithm = ECA_HYBRID ∨ o.algorithm = ECA_FMEXTEND then
      some ⟨o.prefixName ++ ext.SAI_EXT⟩
    else none
  let indexSet : BWTIndexSet := ⟨some pBWT, some pRBWT, pSSA⟩
  match learnStep kd q o baseMinSupport rng0 seeded with
  | .error r => r
  | .ok (baseMinSupport, rng) =>
    match sampleKmerDistribution q o.kmerLength rng with
    | none => .uncaught
    | some (kmerDistribution, _) =>
      let ecParams := setParameters o indexSet (kd.getMedian kmerDistribution) ecParams0
      let bCollectMetrics := decide (o.metricsFile ≠ "")
      let postProcessor : ErrorCorrectPostProcess :=
        ⟨o.outFile, if o.discardFile ≠ "" then some o.discardFile else none, bCollectMetrics⟩
      let call := dispatch o.numThreads o.readsFile ecParams postProcessor
      .completed o baseMinSupport ecParams postProcessor call
        (if bCollectMetrics then some o.metricsFile else none) 0

/-- The function `correctMain`. `rng0` is the state of the random number
generator on entry, `seeded` its state after `srand(time(0))`; `lib`,
`ext`, `kd` and `q` stand for the code outside the sources. -/
def correctMain {σ : Type} (lib : StdLib) (ext : Extensions) (kd : KmerDistributionQueries)
    (q : BWTQueries σ) (opt0 : Opt) (ecParams0 : ErrorCorrectParameters) (rng0 seeded : σ)
    (options : List GetoptResult) (positional : List String) : CorrectMainResult :=
  match parseCorrectOptions lib opt0 options positional with
  | .exited e => .parseExited e
  | .returned o baseMinSupport _ =>
    correctAfterParse ext kd q ecParams0 rng0 seeded o baseMinSupport

/-! ## Auxiliary definitions for the statements -/

/-- The algorithm names for which `determineAlgorithm` has a branch. -/
def recognizedAlgorithms : List String := ["hybrid", "kmer", "overlap", "fmextend"]

/-- The values of the validated options: the six counts and the
algorithm. -/
def validated (o : Opt) : Int × Int × Int × Int × Int × Int × ErrorCorrectAlgorithm :=
  (o.numThreads, o.numOverlapRounds, o.numKmerRounds, o.kmerLength, o.check_kmerLength,
    o.kmerThreshold, o.algorithm)

/-! ### Instances for evaluation -/

/-- A small index for evaluating the front end: the sampler alternates
between the strings `ACGTAC` and `AC`, the generator state counts the
draws, and the occurrence count of a k-mer is its length. -/
def toyQueries : BWTQueries Nat where
  sampleRandomString := fun rng => (if rng % 2 = 0 then "ACGTAC".data else "AC".data, rng + 1)
  countSequenceOccurrences := fun kmer => kmer.length

/-- Histogram queries for evaluation: the boundary search fails on an
empty histogram and otherwise finds the smallest recorded count, the
cumulative proportion is the fraction of recorded counts that are at most
`t`, and the median is the middle recorded count in ascending order. -/
def toyDistributionQueries : KmerDistributionQueries where
  findErrorBoundaryByRatio := fun h _ =>
    match h.added with
    | [] => -1
    | c :: cs => cs.foldl min c
  getCumulativeProportionLEQ := fun h t =>
    mkRat (h.added.countP (fun c => decide (c ≤ t))) h.added.length
  getMedian := fun h =>
    (((h.added.insertionSort (fun a b => a ≤ b)).getD (h.added.length / 2) 0 : Int) : Rat)

/-- File name extensions for evaluation. -/
def toyExtensions : Extensions := ⟨".bwt", ".rbwt", ".sai"⟩

/-- A value for the unassigned members of `ecParams`, for evaluation. -/
def toyParameters : ErrorCorrectParameters where
  algorithm := ECA_HYBRID
  pOverlapper := none
  indices := ⟨none, none, none⟩
  pReadTable := none
  minOverlap := 0
  numOverlapRounds := 0
  minIdentity := 0
  conflictCutoff := 0
  depthFilter := 0
  numKmerRounds := 0
  kmerLength := 0
  check_kmerLength := 0
  solid_threshold := 0
  printOverlaps := false
  isDiploid := false

/-- The options in force after `correct -t 4 reads.fa`. -/
def fourThreads : Opt :=
  { Opt.initial 128 45 with
    numThreads := 4, readsFile := "reads.fa", prefixName := "reads.fa",
    outFile := "reads.fa.ec.fa" }

/-! ## Evaluation of the definitions on small inputs -/

theorem sampleWindows_ACGTAC :
    sampleWindows toyQueries.countSequenceOccurrences 3 "ACGTAC".data KmerDistribution.empty
      = some ⟨[3, 3, 3, 3]⟩ := by decide

theorem sampleWindows_AC :
    sampleWindows toyQueries.countSequenceOccurrences 3 "AC".data KmerDistribution.empty
      = some ⟨[]⟩ := by decide

theorem sampleWindows_negative_length :
    sampleWindows toyQueries.countSequenceOccurrences (-1) "AC".data KmerDistribution.empty
      = none := by decide

theorem sampleLoop_three_draws :
    sampleLoop toyQueries 5 3 0 KmerDistribution.empty = some (⟨[5, 5, 5, 5]⟩, 3) := by decide

theorem decimalInt_values :
    decimalInt "21" 7 = 21 ∧ decimalInt "-5" 7 = -5 ∧ decimalInt "" 7 = 7
    ∧ decimalInt "abc" 7 = 0 ∧ decimalInt " 12x" 7 = 12
    ∧ decimalInt "99999999999" 7 = 2147483647
    ∧ decimalInt "-99999999999" 7 = -2147483648 := by
  refine ⟨by decide, by decide, by decide, by decide, by decide, by decide, by decide⟩

theorem decimalUnsigned_values :
    decimalUnsigned "45" 7 = 45 ∧ decimalUnsigned "-1" 7 = 4294967295
    ∧ decimalUnsigned "" 7 = 7 ∧ decimalUnsigned "99999999999" 7 = 4294967295 := by
  refine ⟨by decide, by decide, by decide, by decide⟩

theorem decimalDouble_values :
    decimalDouble "0.04" 1 = mkRat 4 100 ∧ decimalDouble "2" 1 = 2
    ∧ decimalDouble "-1.5e1" 1 = -15 ∧ decimalDouble "" 1 = 1 := by
  refine ⟨by decide, by decide, by decide, by decide⟩

theorem firstWord_values :
    firstWord "fmextend" "x" = "fmextend" ∧ firstWord " kmer rest" "x" = "kmer"
    ∧ firstWord "" "x" = "x" := by
  refine ⟨by decide, by decide, by decide⟩

theorem unsignedToInt_values :
    unsignedToInt 45 = 45 ∧ unsignedToInt 4294967295 = -1 := by
  refine ⟨by decide, by decide⟩

theorem toyDistributionQueries_values :
    toyDistributionQueries.findErrorBoundaryByRatio ⟨[3, 1, 2, 3]⟩ 2 = 1
    ∧ toyDistributionQueries.findErrorBoundaryByRatio ⟨[]⟩ 2 = -1
    ∧ toyDistributionQueries.getCumulativeProportionLEQ ⟨[3, 1, 2, 3]⟩ 1 = mkRat 1 4
    ∧ toyDistributionQueries.getMedian ⟨[3, 1, 2, 3]⟩ = 3 := by
  refine ⟨by decide, by decide, by decide, by decide⟩

/-! ## Properties of the sampling loop -/

theorem substr_window (s : List Char) (j : Nat) (k : Int) (hk : 1 ≤ k)
    (hj : (j : Int) ≤ s.length) : substr s j k = some (window s j k.toNat) := by
  unfold substr window
  have h1 : ¬ ((j : Int) < 0 ∨ (j : Int) > s.length) := by omega
  have h2 : ¬ k < 0 := by omega
  have h3 : j ≤ s.length := by omega
  simp [h1, h2, h3]

theorem foldlM_windows (count : List Char → Int) (k : Int) (hk : 1 ≤ k) (s : List Char) :
    ∀ (js : List Nat) (h : KmerDistribution), (∀ j ∈ js, (j : Int) ≤ s.length) →
      js.foldlM (fun h (j : Nat) => (substr s (j : Int) k).map (fun kmer => h.add (count kmer))) h
        = some ⟨h.added ++ js.map (fun j => count (window s j k.toNat))⟩ := by
  intro js
  induction js with
  | nil => intro h _; simp
  | cons j js ih =>
    intro h hjs
    have hj : (j : Int) ≤ s.length := hjs j (List.mem_cons_self _ _)
    have hrest : ∀ i ∈ js, (i : Int) ≤ s.length := fun i hi => hjs i (List.mem_cons_of_mem _ hi)
    rw [List.foldlM_cons, substr_window s j k hk hj]
    simp only [Option.map_some', Option.bind_eq_bind, Option.some_bind]
    rw [ih _ hrest]
    simp [KmerDistribution.add]

theorem sampleWindows_eq (count : List Char → Int) (k : Int) (hk : 1 ≤ k) (s : List Char)
    (h : KmerDistribution) :
    sampleWindows count k s h = some ⟨h.added ++ windowCounts count k s⟩ := by
  unfold sampleWindows windowCounts
  apply foldlM_windows count k hk s
  intro j hj
  rw [List.mem_range] at hj
  omega

theorem sampleLoop_eq {σ : Type} (q : BWTQueries σ) (k : Int) (hk : 1 ≤ k) :
    ∀ (n : Nat) (rng : σ) (h : KmerDistribution),
      sampleLoop q k n rng h = some
        (⟨h.added ++ (drawSamples q n rng).flatMap (windowCounts q.countSequenceOccurrences k)⟩,
          stateAfterDraws q n rng) := by
  intro n
  induction n with
  | zero => intro rng h; simp [sampleLoop, drawSamples, stateAfterDraws]
  | succ n ih =>
    intro rng h
    simp only [sampleLoop, sampleWindows_eq _ k hk, ih, drawSamples, stateAfterDraws,
      List.flatMap_cons, List.append_assoc]

theorem sampleLoop_empty {σ : Type} (q : BWTQueries σ) (k : Int) (hk : 1 ≤ k) (n : Nat)
    (rng : σ) : sampleLoop q k n rng KmerDistribution.empty = some
      (⟨(drawSamples q n rng).flatMap (windowCounts q.countSequenceOccurrences k)⟩,
        stateAfterDraws q n rng) := by
  rw [sampleLoop_eq q k hk n rng KmerDistribution.empty]
  simp [KmerDistribution.empty]

theorem drawSamples_length {σ : Type} (q : BWTQueries σ) :
    ∀ (n : Nat) (rng : σ), (drawSamples q n rng).length = n := by
  intro n
  induction n with
  | zero => intro rng; rfl
  | succ n ih => intro rng; simp [drawSamples, ih]

theorem window_length (s : List Char) (j k : Nat) (h : j + k ≤ s.length) :
    (window s j k).length = k := by
  unfold window
  simp
  omega

theorem window_getElem? (s : List Char) (j k i : Nat) (hi : i < k) :
    (window s j k)[i]? = s[j + i]? := by
  unfold window
  rw [List.getElem?_take_of_lt hi, List.getElem?_drop]

theorem windowCounts_length (count : List Char → Int) (k : Int) (s : List Char) :
    ((windowCounts count k s).length : Int) = max 0 ((s.length : Int) - k + 1) := by
  unfold windowCounts
  rw [List.length_map, List.length_range, Int.toNat_eq_max, max_comm]

theorem windowCounts_getElem? (count : List Char → Int) (k : Int) (s : List Char) (j : Nat)
    (hj : (j : Int) + k ≤ s.length) :
    (windowCounts count k s)[j]? = some (count (window s j k.toNat)) := by
  unfold windowCounts
  have hlt : j < ((s.length : Int) - k + 1).toNat := by omega
  rw [List.getElem?_map, List.getElem?_range hlt]
  rfl

theorem windowCounts_short (count : List Char → Int) (k : Int) (s : List Char)
    (h : (s.length : Int) < k) : windowCounts count k s = [] := by
  unfold windowCounts
  have h0 : ((s.length : Int) - k + 1).toNat = 0 := by omega
  rw [h0]
  rfl

/-- Claim C3. For every k-mer length `k ≥ 1` the sampling code returns; it
leaves the random number generator in the state reached after exactly
`n_samples = 10,000` calls of the sampler, so exactly 10,000 strings are
sampled; the recorded values of the histogram are, for these 10,000 strings
in the order drawn, the values `windowCounts`; for a sampled string `s` of
length `n` these are exactly `max(0, n-k+1)` values, the `j`-th (for `j`
with `j + k ≤ n`) being the occurrence count of the window `s[j..j+k)`, a
list of `k` characters whose `i`-th character is `s[j+i]`; a string shorter
than `k` contributes nothing. -/
theorem sampling_records_window_counts {σ : Type} (q : BWTQueries σ) (k : Int) (hk : 1 ≤ k)
    (rng : σ) :
    sampleKmerDistribution q k rng = some
        (⟨(drawSamples q n_samples rng).flatMap (windowCounts q.countSequenceOccurrences k)⟩,
          stateAfterDraws q n_samples rng)
    ∧ n_samples = 10000
    ∧ (drawSamples q n_samples rng).length = 10000
    ∧ ∀ s : List Char,
        ((windowCounts q.countSequenceOccurrences k s).length : Int)
          = max 0 ((s.length : Int) - k + 1)
        ∧ (∀ j : Nat, (j : Int) + k ≤ s.length →
            (windowCounts q.countSequenceOccurrences k s)[j]?
              = some (q.countSequenceOccurrences (window s j k.toNat))
            ∧ ((window s j k.toNat).length : Int) = k
            ∧ ∀ i : Nat, (i : Int) < k → (window s j k.toNat)[i]? = s[j + i]?)
        ∧ ((s.length : Int) < k → windowCounts q.countSequenceOccurrences k s = []) := by
  refine ⟨?_, rfl, ?_, ?_⟩
  · unfold sampleKmerDistribution
    exact sampleLoop_empty q k hk n_samples rng
  · rw [drawSamples_length]
    rfl
  · intro s
    refine ⟨windowCounts_length _ k s, ?_, windowCounts_short _ k s⟩
    intro j hj
    refine ⟨windowCounts_getElem? _ k s j hj, ?_, ?_⟩
    · rw [window_length s j k.toNat (by omega)]
      omega
    · intro i hi
      exact window_getElem? s j k.toNat i (by omega)

theorem stateAfterDraws_toyQueries :
    ∀ (n rng : Nat), stateAfterDraws toyQueries n rng = rng + n := by
  intro n
  induction n with
  | zero => intro rng; rfl
  | succ n ih =>
    intro rng
    rw [stateAfterDraws, ih]
    show rng + 1 + n = rng + (n + 1)
    omega

/-! ## Properties of `learnKmerParameters` -/

theorem sampleKmerDistribution_isSome {σ : Type} (q : BWTQueries σ) (k : Int) (hk : 1 ≤ k)
    (rng : σ) : ∃ h rng1, sampleKmerDistribution q k rng = some (h, rng1) := by
  exact ⟨_, _, sampleLoop_eq q k hk n_samples rng KmerDistribution.empty⟩

theorem riskyChoiceWarning_ne_nil (c : Rat) : riskyChoiceWarning c ≠ [] := by
  simp [riskyChoiceWarning]

theorem mkRat_one_four : mkRat 1 4 = 1 / 4 := by
  rw [Rat.mkRat_eq_div]
  norm_num

/-- Claim C1. `learnKmerParameters` searches the error boundary of the
histogram `h` it has built with ratio exactly 2; it exits with
`EXIT_FAILURE` if and only if that search returns `-1`; in every other
case it returns the value found by the search unchanged; and for every
k-mer length `k ≥ 1` the histogram is built. -/
theorem learnKmerParameters_exit_iff_not_found {σ : Type} (kd : KmerDistributionQueries)
    (q : BWTQueries σ) (k : Int) (seeded : σ) :
    ((learnKmerParameters kd q k seeded).result = .exited EXIT_FAILURE
      ↔ ∃ h rng, sampleKmerDistribution q k seeded = some (h, rng)
          ∧ kd.findErrorBoundaryByRatio h 2 = -1)
    ∧ (∀ h rng, sampleKmerDistribution q k seeded = some (h, rng) →
        kd.findErrorBoundaryByRatio h 2 ≠ -1 →
        (learnKmerParameters kd q k seeded).result
          = .returned (kd.findErrorBoundaryByRatio h 2))
    ∧ (1 ≤ k → ∃ h rng, sampleKmerDistribution q k seeded = some (h, rng)) := by
  refine ⟨?_, ?_, fun hk => sampleKmerDistribution_isSome q k hk seeded⟩
  · unfold learnKmerParameters
    cases hs : sampleKmerDistribution q k seeded with
    | none => simp
    | some hr =>
      obtain ⟨h, rng⟩ := hr
      by_cases ht : kd.findErrorBoundaryByRatio h 2 = -1
      · simp [ht]
      · simp [ht]
  · intro h rng hs ht
    unfold learnKmerParameters
    rw [hs]
    simp [ht]

/-- Claim C2. For every histogram `h` built by `learnKmerParameters` in
which a threshold `t` is found (`t ≠ -1`), the three-line warning is
written to `std::cerr` if and only if the value of
`getCumulativeProportionLEQ(t)` is strictly greater than `0.25`, nothing
is written to `std::cerr` otherwise, and in both cases the function
returns `t`; for every k-mer length `k ≥ 1` the histogram is built. -/
theorem learnKmerParameters_warning_iff {σ : Type} (kd : KmerDistributionQueries)
    (q : BWTQueries σ) (k : Int) (seeded : σ) :
    (∀ h rng, sampleKmerDistribution q k seeded = some (h, rng) →
      kd.findErrorBoundaryByRatio h 2 ≠ -1 →
        ((learnKmerParameters kd q k seeded).cerr
            = riskyChoiceWarning
                (kd.getCumulativeProportionLEQ h (kd.findErrorBoundaryByRatio h 2))
          ↔ kd.getCumulativeProportionLEQ h (kd.findErrorBoundaryByRatio h 2) > 1 / 4)
        ∧ ((learnKmerParameters kd q k seeded).cerr = []
          ↔ ¬ kd.getCumulativeProportionLEQ h (kd.findErrorBoundaryByRatio h 2) > 1 / 4)
        ∧ (learnKmerParameters kd q k seeded).result
            = .returned (kd.findErrorBoundaryByRatio h 2))
    ∧ (1 ≤ k → ∃ h rng, sampleKmerDistribution q k seeded = some (h, rng)) := by
  refine ⟨?_, fun hk => sampleKmerDistribution_isSome q k hk seeded⟩
  intro h rng hs ht
  have hw := riskyChoiceWarning_ne_nil
    (kd.getCumulativeProportionLEQ h (kd.findErrorBoundaryByRatio h 2))
  unfold learnKmerParameters
  rw [hs]
  simp only [ht, if_false, mkRat_one_four]
  by_cases hc : kd.getCumulativeProportionLEQ h (kd.findErrorBoundaryByRatio h 2) > 1 / 4
  · simp [hc, hw]
  · simp [hc, hw, Ne.symm hw]

/-! ## Properties of the dispatch in `correctMain` -/

theorem foldl_push_const {α β : Type} (x : α) :
    ∀ (l : List β) (acc : List α),
      l.foldl (fun v _ => v ++ [x]) acc = acc ++ List.replicate l.length x := by
  intro l
  induction l with
  | nil => intro acc; simp
  | cons b l ih =>
    intro acc
    rw [List.foldl_cons, ih]
    simp [List.replicate_succ]

theorem makeProcessorVector_eq (numThreads : Int) (ecParams : ErrorCorrectParameters) :
    makeProcessorVector numThreads ecParams
      = List.replicate numThreads.toNat (ErrorCorrectProcess.mk ecParams) := by
  unfold makeProcessorVector
  rw [foldl_push_const]
  simp

/-- Claim C4. In every completed run of `correctMain`, with `opt` the
options in force, `ecParams` the parameter object and `postProcessor` the
one post-processor of the run: when `opt.numThreads ≤ 1` the call is
`processSequencesSerial` with one corrector built from `ecParams`;
otherwise it is `processSequencesParallel` with a vector of exactly
`opt.numThreads` correctors, each built from `ecParams`; both calls are
given `postProcessor`. -/
theorem correctMain_dispatch {σ : Type} (lib : StdLib) (ext : Extensions)
    (kd : KmerDistributionQueries) (q : BWTQueries σ) (opt0 : Opt)
    (ecParams0 : ErrorCorrectParameters) (rng0 seeded : σ) (options : List GetoptResult)
    (positional : List String) (opt : Opt) (baseMinSupport : Int)
    (ecParams : ErrorCorrectParameters) (postProcessor : ErrorCorrectPostProcess)
    (call : FrameworkCall) (metricsFile : Option String) (status : Int)
    (hrun : correctMain lib ext kd q opt0 ecParams0 rng0 seeded options positional
      = .completed opt baseMinSupport ecParams postProcessor call metricsFile status) :
    (opt.numThreads ≤ 1 →
      call = .processSequencesSerial opt.readsFile (ErrorCorrectProcess.mk ecParams) postProcessor)
    ∧ (1 < opt.numThreads →
      ∃ processorVector : List ErrorCorrectProcess,
        call = .processSequencesParallel opt.readsFile processorVector postProcessor
        ∧ (processorVector.length : Int) = opt.numThreads
        ∧ ∀ p ∈ processorVector, p = ErrorCorrectProcess.mk ecParams) := by
  have hcall : call = dispatch opt.numThreads opt.readsFile ecParams postProcessor := by
    unfold correctMain at hrun
    split at hrun
    · exact absurd hrun (by simp)
    · unfold correctAfterParse at hrun
      simp only at hrun
      split at hrun
      · rename_i r hl
        unfold learnStep at hl
        split at hl
        · split at hl
          · exact absurd hl (by simp)
          · simp only [Except.error.injEq] at hl
            rw [← hl] at hrun
            exact absurd hrun (by simp)
          · simp only [Except.error.injEq] at hl
            rw [← hl] at hrun
            exact absurd hrun (by simp)
        · exact absurd hl (by simp)
      · split at hrun
        · exact absurd hrun (by simp)
        · simp only [CorrectMainResult.completed.injEq] at hrun
          obtain ⟨ho, _, hp, hpost, hc, _, _⟩ := hrun
          rw [← hc, ← ho, ← hp, ← hpost]
  subst hcall
  constructor
  · intro h
    simp [dispatch, h]
  · intro h
    have h1 : ¬ opt.numThreads ≤ 1 := by omega
    refine ⟨makeProcessorVector opt.numThreads ecParams, by simp [dispatch, h1], ?_, ?_⟩
    · rw [makeProcessorVector_eq, List.length_replicate]
      omega
    · intro p hp
      rw [makeProcessorVector_eq] at hp
      exact List.eq_of_mem_replicate hp

/-! ## Properties of `parseCorrectOptions` -/

theorem ite_ok {ε α : Type} (p : Prop) [Decidable p] (a b : Except ε α)
    (ha : ∃ x, a = .ok x) (hb : ∃ x, b = .ok x) : ∃ x, (if p then a else b) = .ok x := by
  split <;> assumption

theorem optionSwitch_ok (lib : StdLib) (st : ParseState) (c : Char) (arg : String)
    (h1 : c ≠ OPT_HELP) (h2 : c ≠ OPT_VERSION) : ∃ st1, optionSwitch lib st c arg = .ok st1 := by
  unfold optionSwitch
  rw [if_neg h1, if_neg h2]
  repeat first | exact ⟨_, rfl⟩ | apply ite_ok

theorem optionLoop_ok (lib : StdLib) :
    ∀ (options : List GetoptResult) (st : ParseState),
      (∀ g ∈ options, g.c ≠ OPT_HELP ∧ g.c ≠ OPT_VERSION) →
      ∃ st1, optionLoop lib st options = .ok st1 := by
  intro options
  induction options with
  | nil => intro st _; exact ⟨st, rfl⟩
  | cons g rest ih =>
    intro st h
    obtain ⟨hg1, hg2⟩ := h g (List.mem_cons_self _ _)
    obtain ⟨st1, hst1⟩ := optionSwitch_ok lib st g.c (g.optarg.getD "") hg1 hg2
    obtain ⟨st2, hst2⟩ := ih st1 (fun x hx => h x (List.mem_cons_of_mem _ hx))
    exact ⟨st2, by simp [optionLoop, hst1, hst2]⟩

theorem optionLoop_append (lib : StdLib) :
    ∀ (before : List GetoptResult) (st st1 : ParseState) (rest : List GetoptResult),
      optionLoop lib st before = .ok st1 →
      optionLoop lib st (before ++ rest) = optionLoop lib st1 rest := by
  intro before
  induction before with
  | nil =>
    intro st st1 rest h
    simp only [optionLoop, Except.ok.injEq] at h
    rw [List.nil_append, h]
  | cons g before ih =>
    intro st st1 rest h
    rw [List.cons_append]
    cases hs : optionSwitch lib st g.c (g.optarg.getD "") with
    | error e =>
      simp [optionLoop, hs] at h
    | ok st2 =>
      have h2 : optionLoop lib st2 before = .ok st1 := by
        simpa [optionLoop, hs] using h
      have h3 : optionLoop lib st (g :: (before ++ rest))
          = optionLoop lib st2 (before ++ rest) := by
        simp [optionLoop, hs]
      rw [h3]
      exact ih st2 st1 rest h2

theorem optionSwitch_help (lib : StdLib) (st : ParseState) (arg : String) :
    optionSwitch lib st OPT_HELP arg = .error ⟨EXIT_SUCCESS, [CoutMsg.usageMessage], []⟩ :=
  rfl

theorem optionSwitch_version (lib : StdLib) (st : ParseState) (arg : String) :
    optionSwitch lib st OPT_VERSION arg
      = .error ⟨EXIT_SUCCESS, [CoutMsg.versionMessage], []⟩ :=
  rfl

theorem parseCorrectOptions_first_exit (lib : StdLib) (opt0 : Opt)
    (before : List GetoptResult) (g : GetoptResult) (rest : List GetoptResult)
    (positional : List String) (e : ExitCall)
    (hb : ∀ x ∈ before, x.c ≠ OPT_HELP ∧ x.c ≠ OPT_VERSION)
    (hg : ∀ st, optionSwitch lib st g.c (g.optarg.getD "") = .error e) :
    parseCorrectOptions lib opt0 (before ++ g :: rest) positional = .exited e := by
  obtain ⟨st1, h1⟩ := optionLoop_ok lib before ⟨opt0, "", false, false⟩ hb
  unfold parseCorrectOptions
  rw [optionLoop_append lib before _ st1 (g :: rest) h1]
  simp [optionLoop, hg st1]

theorem checkArgumentCount_fst (n : Nat) (die : Bool) (cerr : List CerrMsg) :
    (checkArgumentCount n die cerr).1 = (decide (n ≠ 1) || die) := by
  unfold checkArgumentCount
  by_cases h1 : (n : Int) < 1
  · have : n ≠ 1 := by omega
    simp [h1, this]
  · by_cases h2 : (n : Int) > 1
    · have : n ≠ 1 := by omega
      simp [h1, h2, this]
    · have : n = 1 := by omega
      simp [this]

theorem checkPositive_fst (value : Int) (msg : Int → CerrMsg) (dc : Bool × List CerrMsg) :
    (checkPositive value msg dc).1 = (decide (value ≤ 0) || dc.1) := by
  unfold checkPositive
  by_cases h : value ≤ 0 <;> simp [h]

theorem determineAlgorithm_die (algo_str : String) (a : ErrorCorrectAlgorithm)
    (dc : Bool × List CerrMsg) :
    (determineAlgorithm algo_str a dc).2.1
      = (dc.1 || decide (algo_str ≠ "" ∧ algo_str ∉ recognizedAlgorithms)) := by
  unfold determineAlgorithm recognizedAlgorithms
  by_cases h0 : algo_str = ""
  · simp [h0]
  · by_cases h1 : algo_str = "hybrid"
    · simp [h1]
    · by_cases h2 : algo_str = "kmer"
      · simp [h2]
      · by_cases h3 : algo_str = "overlap"
        · simp [h3]
        · by_cases h4 : algo_str = "fmextend"
          · simp [h4]
          · simp [h0, h1, h2, h3, h4]

theorem validateOptions_die (n : Nat) (st : ParseState) :
    (validateOptions n st).2.1 = true ↔
      (st.opt.numThreads ≤ 0 ∨ st.opt.numOverlapRounds ≤ 0 ∨ st.opt.numKmerRounds ≤ 0
        ∨ st.opt.kmerLength ≤ 0 ∨ st.opt.check_kmerLength ≤ 0 ∨ st.opt.kmerThreshold ≤ 0
        ∨ n ≠ 1 ∨ (st.algo_str ≠ "" ∧ st.algo_str ∉ recognizedAlgorithms) ∨ st.die = true) := by
  unfold validateOptions
  simp only [determineAlgorithm_die, checkPositive_fst, checkArgumentCount_fst,
    Bool.or_eq_true, decide_eq_true_eq]
  tauto

theorem validated_ite (p : Prop) [Decidable p] (a b : Opt) (h : validated a = validated b) :
    validated (if p then a else b) = validated b := by
  split
  · exact h
  · rfl

theorem validated_clampErrorRate (o : Opt) : validated (clampErrorRate o) = validated o :=
  validated_ite _ _ _ rfl

theorem validated_adjustSeed (o : Opt) : validated (adjustSeed o) = validated o := by
  unfold adjustSeed
  dsimp only
  split <;> split <;> rfl

theorem validated_setInputFiles (lib : StdLib) (positional : List String) (o : Opt) :
    validated (setInputFiles lib positional o) = validated o := by
  unfold setInputFiles
  exact validated_ite _ _ _ rfl

theorem validated_setOutputFiles (lib : StdLib) (b : Bool) (o : Opt) :
    validated (setOutputFiles lib b o) = validated o := by
  unfold setOutputFiles
  dsimp only
  split <;> split <;> rfl

theorem finishOptions_returned (lib : StdLib) (o : Opt) (b : Bool) (positional : List String)
    (cerr : List CerrMsg) (o1 : Opt) (bms : Int) (cerr1 : List CerrMsg)
    (h : finishOptions lib o b positional cerr = .returned o1 bms cerr1) :
    validated o1 = validated o ∧ bms = o.kmerThreshold := by
  have hv : validated (setInputFiles lib positional (adjustSeed (clampErrorRate o)))
      = validated o := by
    rw [validated_setInputFiles, validated_adjustSeed, validated_clampErrorRate]
  unfold finishOptions at h
  split at h
  · exact absurd h (by simp)
  · split at h
    · exact absurd h (by simp)
    · simp only [ParseResult.returned.injEq] at h
      obtain ⟨ho, hb, _⟩ := h
      subst ho
      subst hb
      constructor
      · rw [validated_setOutputFiles, hv]
      · have := congrArg (fun t => t.2.2.2.2.2.1) hv
        simpa [validated] using this

theorem parseCorrectOptions_returned_ge_one (lib : StdLib) (opt0 : Opt)
    (options : List GetoptResult) (positional : List String) (o : Opt) (bms : Int)
    (cerr : List CerrMsg)
    (h : parseCorrectOptions lib opt0 options positional = .returned o bms cerr) :
    1 ≤ o.numThreads ∧ 1 ≤ o.numOverlapRounds ∧ 1 ≤ o.numKmerRounds ∧ 1 ≤ o.kmerLength
      ∧ 1 ≤ o.check_kmerLength ∧ 1 ≤ o.kmerThreshold := by
  unfold parseCorrectOptions at h
  cases hl : optionLoop lib ⟨opt0, "", false, false⟩ options with
  | error e =>
    rw [hl] at h
    exact absurd h (by simp)
  | ok st =>
    rw [hl] at h
    rcases hv : validateOptions positional.length st with ⟨alg, die, cerr0⟩
    simp only [hv] at h
    cases die with
    | true => exact absurd h (by simp)
    | false =>
      simp only [Bool.false_eq_true, if_false] at h
      have hval := (finishOptions_returned lib _ _ _ _ _ _ _ h).1
      have hnd : ¬ (validateOptions positional.length st).2.1 = true := by
        rw [hv]
        simp
      rw [validateOptions_die] at hnd
      simp only [validated, Prod.mk.injEq] at hval
      obtain ⟨h1, h2, h3, h4, h5, h6, _⟩ := hval
      rw [h1, h2, h3, h4, h5, h6]
      refine ⟨?_, ?_, ?_, ?_, ?_, ?_⟩ <;> · by_contra hc; apply hnd; simp only [not_le] at hc; omega

/-- Claim C6, amended. When neither `--help` nor `--version` is among the
options, the option loop ends in a state `st`, and whenever one of thread
count, overlap rounds, k-mer rounds, k-mer length, check k-mer length or
k-mer threshold of `st` is `≤ 0`, or the number of positional arguments is
not exactly one, or the algorithm name is non-empty and has no branch,
`parseCorrectOptions` prints a newline and the usage to `std::cout` and
exits with `EXIT_FAILURE`, and `correctMain` ends there. Whenever
`parseCorrectOptions` returns, all six parameters are `≥ 1`. When the
first `--help` or `--version` among the options is `--help`, the function
prints the usage and exits with `EXIT_SUCCESS`; when it is `--version`, it
prints the version message and exits with `EXIT_SUCCESS`. -/
theorem parseCorrectOptions_rejects_invalid (lib : StdLib) (opt0 : Opt)
    (options : List GetoptResult) (positional : List String) :
    ((∀ g ∈ options, g.c ≠ OPT_HELP ∧ g.c ≠ OPT_VERSION) →
      ∃ st, optionLoop lib ⟨opt0, "", false, false⟩ options = .ok st ∧
        ((st.opt.numThreads ≤ 0 ∨ st.opt.numOverlapRounds ≤ 0 ∨ st.opt.numKmerRounds ≤ 0
            ∨ st.opt.kmerLength ≤ 0 ∨ st.opt.check_kmerLength ≤ 0 ∨ st.opt.kmerThreshold ≤ 0
            ∨ positional.length ≠ 1
            ∨ (st.algo_str ≠ "" ∧ st.algo_str ∉ recognizedAlgorithms)) →
          ∃ cerr,
            parseCorrectOptions lib opt0 options positional
              = .exited ⟨EXIT_FAILURE, [CoutMsg.newline, CoutMsg.usageMessage], cerr⟩
            ∧ ∀ (σ : Type) (ext : Extensions) (kd : KmerDistributionQueries)
                (q : BWTQueries σ) (ecParams0 : ErrorCorrectParameters) (rng0 seeded : σ),
                correctMain lib ext kd q opt0 ecParams0 rng0 seeded options positional
                  = .parseExited ⟨EXIT_FAILURE, [CoutMsg.newline, CoutMsg.usageMessage], cerr⟩))
    ∧ (∀ o bms cerr, parseCorrectOptions lib opt0 options positional = .returned o bms cerr →
        1 ≤ o.numThreads ∧ 1 ≤ o.numOverlapRounds ∧ 1 ≤ o.numKmerRounds ∧ 1 ≤ o.kmerLength
          ∧ 1 ≤ o.check_kmerLength ∧ 1 ≤ o.kmerThreshold)
    ∧ (∀ (before : List GetoptResult) (g : GetoptResult) (rest : List GetoptResult),
        options = before ++ g :: rest →
        (∀ x ∈ before, x.c ≠ OPT_HELP ∧ x.c ≠ OPT_VERSION) →
        (g.c = OPT_HELP →
          parseCorrectOptions lib opt0 options positional
            = .exited ⟨EXIT_SUCCESS, [CoutMsg.usageMessage], []⟩)
        ∧ (g.c = OPT_VERSION →
          parseCorrectOptions lib opt0 options positional
            = .exited ⟨EXIT_SUCCESS, [CoutMsg.versionMessage], []⟩)) := by
  refine ⟨?_, ?_, ?_⟩
  · intro hh
    obtain ⟨st, hst⟩ := optionLoop_ok lib options ⟨opt0, "", false, false⟩ hh
    refine ⟨st, hst, ?_⟩
    intro hbad
    have hdie : (validateOptions positional.length st).2.1 = true :=
      (validateOptions_die _ _).2 (by tauto)
    rcases hv : validateOptions positional.length st with ⟨alg, die, cerr⟩
    rw [hv] at hdie
    simp only at hdie
    subst hdie
    have hp : parseCorrectOptions lib opt0 options positional
        = .exited ⟨EXIT_FAILURE, [CoutMsg.newline, CoutMsg.usageMessage], cerr⟩ := by
      unfold parseCorrectOptions
      rw [hst]
      simp only [hv, if_true]
    refine ⟨cerr, hp, ?_⟩
    intro σ ext kd q ecParams0 rng0 seeded
    unfold correctMain
    rw [hp]
  · exact parseCorrectOptions_returned_ge_one lib opt0 options positional
  · intro before g rest ho hb
    subst ho
    constructor
    · intro hg
      apply parseCorrectOptions_first_exit lib opt0 before g rest positional _ hb
      intro st
      rw [hg]
      exact optionSwitch_help lib st _
    · intro hg
      apply parseCorrectOptions_first_exit lib opt0 before g rest positional _ hb
      intro st
      rw [hg]
      exact optionSwitch_version lib st _

/-- Claim C3 on the small index with k-mer length 3, whose generator state
counts the calls of the sampler: the state after the sampling is 10,000. -/
theorem sampling_records_window_counts_witness :
    (1 : Int) ≤ 3
    ∧ sampleKmerDistribution toyQueries 3 0 = some
        (⟨(drawSamples toyQueries n_samples 0).flatMap
            (windowCounts toyQueries.countSequenceOccurrences 3)⟩, 10000)
    ∧ (drawSamples toyQueries n_samples 0).length = 10000 := by
  obtain ⟨hs, hn, hl, _⟩ := sampling_records_window_counts toyQueries 3 (by decide) 0
  refine ⟨by decide, ?_, hl⟩
  rw [hs, stateAfterDraws_toyQueries, hn]

/-- Claim C1 on the small index with k-mer length 3. -/
theorem learnKmerParameters_exit_iff_not_found_witness :
    (1 : Int) ≤ 3 ∧
    ∃ h rng, sampleKmerDistribution toyQueries 3 0 = some (h, rng)
      ∧ ((learnKmerParameters toyDistributionQueries toyQueries 3 0).result = .exited EXIT_FAILURE
          ↔ toyDistributionQueries.findErrorBoundaryByRatio h 2 = -1)
      ∧ (toyDistributionQueries.findErrorBoundaryByRatio h 2 ≠ -1 →
          (learnKmerParameters toyDistributionQueries toyQueries 3 0).result
            = .returned (toyDistributionQueries.findErrorBoundaryByRatio h 2)) := by
  obtain ⟨hiff, hret, hex⟩ :=
    learnKmerParameters_exit_iff_not_found toyDistributionQueries toyQueries 3 0
  obtain ⟨h, rng, hs⟩ := hex (by decide)
  refine ⟨by decide, h, rng, hs, ⟨?_, ?_⟩, hret h rng hs⟩
  · intro he
    obtain ⟨h1, rng1, hs1, hf⟩ := hiff.1 he
    rw [hs] at hs1
    simp only [Option.some.injEq, Prod.mk.injEq] at hs1
    rw [hs1.1]
    exact hf
  · intro hf
    exact hiff.2 ⟨h, rng, hs, hf⟩

theorem windowCounts_toyQueries (s : List Char) :
    ∀ c ∈ windowCounts toyQueries.countSequenceOccurrences 3 s, c = 3 := by
  intro c hc
  unfold windowCounts at hc
  rw [List.mem_map] at hc
  obtain ⟨j, hj, hjc⟩ := hc
  rw [List.mem_range] at hj
  have hlen : (window s j (3 : Int).toNat).length = 3 := window_length s j 3 (by omega)
  rw [← hjc]
  show ((window s j (3 : Int).toNat).length : Int) = 3
  rw [hlen]
  rfl

theorem toyHistogram_all (n rng : Nat) :
    ∀ c ∈ (drawSamples toyQueries n rng).flatMap
        (windowCounts toyQueries.countSequenceOccurrences 3), c = 3 := by
  intro c hc
  rw [List.mem_flatMap] at hc
  obtain ⟨s, _, hs⟩ := hc
  exact windowCounts_toyQueries s c hs

theorem toyHistogram_head (n : Nat) :
    ∃ cs, (drawSamples toyQueries (n + 1) 0).flatMap
        (windowCounts toyQueries.countSequenceOccurrences 3) = 3 :: cs := by
  have h0 : windowCounts toyQueries.countSequenceOccurrences 3 (toyQueries.sampleRandomString 0).1
      = [3, 3, 3, 3] := by decide
  refine ⟨[3, 3, 3] ++ (drawSamples toyQueries n (toyQueries.sampleRandomString 0).2).flatMap
    (windowCounts toyQueries.countSequenceOccurrences 3), ?_⟩
  rw [drawSamples, List.flatMap_cons, h0]
  rfl

theorem foldl_min_const (c : Int) :
    ∀ cs : List Int, (∀ x ∈ cs, x = c) → cs.foldl min c = c := by
  intro cs
  induction cs with
  | nil => intro _; rfl
  | cons x cs ih =>
    intro h
    have hx : x = c := h x (List.mem_cons_self _ _)
    rw [List.foldl_cons, hx, min_self]
    exact ih (fun y hy => h y (List.mem_cons_of_mem _ hy))

theorem countP_all (t : Int) :
    ∀ cs : List Int, (∀ x ∈ cs, x ≤ t) → cs.countP (fun c => decide (c ≤ t)) = cs.length := by
  intro cs h
  rw [List.countP_eq_length]
  intro x hx
  simpa using h x hx

/-- Claim C2 on the small index with k-mer length 3: every recorded count
is 3, the threshold found is 3, the cumulative proportion at 3 is 1, which
exceeds 0.25, so the warning is written and 3 is returned. -/
theorem learnKmerParameters_warning_iff_witness :
    (1 : Int) ≤ 3
    ∧ (learnKmerParameters toyDistributionQueries toyQueries 3 0).cerr = riskyChoiceWarning 1
    ∧ (learnKmerParameters toyDistributionQueries toyQueries 3 0).result = .returned 3 := by
  obtain ⟨hw, _⟩ := learnKmerParameters_warning_iff toyDistributionQueries toyQueries 3 0
  have hs := sampleLoop_empty toyQueries 3 (by decide) n_samples 0
  obtain ⟨cs, hcs⟩ := toyHistogram_head 9999
  have hall := toyHistogram_all n_samples 0
  have hn : n_samples = 9999 + 1 := rfl
  rw [hn] at hs hall
  rw [hcs] at hs hall
  have hcs3 : ∀ x ∈ cs, x = 3 := fun x hx => hall x (List.mem_cons_of_mem _ hx)
  have hfind : toyDistributionQueries.findErrorBoundaryByRatio ⟨3 :: cs⟩ 2 = 3 :=
    foldl_min_const 3 cs hcs3
  have hcum : toyDistributionQueries.getCumulativeProportionLEQ ⟨3 :: cs⟩ 3 = 1 := by
    show mkRat ((3 :: cs).countP (fun c => decide (c ≤ 3))) (3 :: cs).length = 1
    rw [countP_all 3 (3 :: cs) (fun x hx => le_of_eq (hall x hx))]
    rw [Rat.mkRat_eq_div]
    have : (((3 :: cs).length : Nat) : Rat) ≠ 0 :=
      Nat.cast_ne_zero.mpr (Nat.succ_ne_zero cs.length)
    simp only [Int.cast_natCast]
    exact div_self this
  have hne : toyDistributionQueries.findErrorBoundaryByRatio ⟨3 :: cs⟩ 2 ≠ -1 := by
    rw [hfind]
    decide
  obtain ⟨hiff, _, hret⟩ := hw ⟨3 :: cs⟩ (stateAfterDraws toyQueries (9999 + 1) 0) hs hne
  rw [hfind] at hret
  rw [hfind, hcum] at hiff
  exact ⟨by decide, hiff.2 (by norm_num), hret⟩

theorem parse_four_threads :
    parseCorrectOptions plainLib (Opt.initial 128 45) [⟨'t', some "4"⟩] ["reads.fa"]
      = .returned fourThreads 3 [] := by
  decide

theorem correctMain_completes {σ : Type} (lib : StdLib) (ext : Extensions)
    (kd : KmerDistributionQueries) (q : BWTQueries σ) (opt0 : Opt)
    (ecParams0 : ErrorCorrectParameters) (rng0 seeded : σ) (options : List GetoptResult)
    (positional : List String) (o : Opt) (bms : Int) (cerr : List CerrMsg)
    (hp : parseCorrectOptions lib opt0 options positional = .returned o bms cerr)
    (hl : o.bLearnKmerParams = false) :
    ∃ ecParams postProcessor call metricsFile,
      correctMain lib ext kd q opt0 ecParams0 rng0 seeded options positional
        = .completed o bms ecParams postProcessor call metricsFile 0 := by
  have hk : 1 ≤ o.kmerLength :=
    (parseCorrectOptions_returned_ge_one lib opt0 options positional o bms cerr hp).2.2.2.1
  obtain ⟨h, rng1, hs⟩ := sampleKmerDistribution_isSome q o.kmerLength hk rng0
  unfold correctMain
  rw [hp]
  unfold correctAfterParse learnStep
  simp only [hl, Bool.false_eq_true, if_false, hs]
  exact ⟨_, _, _, _, rfl⟩

/-- Claim C4 on the completed run of `correct -t 4 reads.fa`. -/
theorem correctMain_dispatch_witness :
    ∃ ecParams postProcessor call metricsFile,
      correctMain plainLib toyExtensions toyDistributionQueries toyQueries (Opt.initial 128 45)
          toyParameters 0 0 [⟨'t', some "4"⟩] ["reads.fa"]
        = .completed fourThreads 3 ecParams postProcessor call metricsFile 0
      ∧ ((fourThreads.numThreads ≤ 1 →
          call = .processSequencesSerial fourThreads.readsFile (ErrorCorrectProcess.mk ecParams)
            postProcessor)
        ∧ (1 < fourThreads.numThreads →
          ∃ processorVector : List ErrorCorrectProcess,
            call = .processSequencesParallel fourThreads.readsFile processorVector postProcessor
            ∧ (processorVector.length : Int) = fourThreads.numThreads
            ∧ ∀ p ∈ processorVector, p = ErrorCorrectProcess.mk ecParams)) := by
  obtain ⟨ecParams, postProcessor, call, metricsFile, h⟩ :=
    correctMain_completes plainLib toyExtensions toyDistributionQueries toyQueries (Opt.initial 128 45)
      toyParameters 0 0 [⟨'t', some "4"⟩] ["reads.fa"] fourThreads 3 [] parse_four_threads rfl
  exact ⟨ecParams, postProcessor, call, metricsFile, h,
    correctMain_dispatch _ _ _ _ _ _ _ _ _ _ _ _ _ _ _ _ _ h⟩

/-- Counterexample to claim C6 as stated. For the command line
`correct --help` the number of positional arguments is zero, not one, and
`parseCorrectOptions` prints the usage and exits with `EXIT_SUCCESS`, so
the exit status is not the failure status. -/
theorem help_exits_with_success :
    ([] : List String).length ≠ 1
    ∧ parseCorrectOptions plainLib (Opt.initial 128 45) [⟨OPT_HELP, none⟩] []
        = .exited ⟨EXIT_SUCCESS, [CoutMsg.usageMessage], []⟩
    ∧ EXIT_SUCCESS ≠ EXIT_FAILURE
    ∧ ∀ cout cerr, parseCorrectOptions plainLib (Opt.initial 128 45) [⟨OPT_HELP, none⟩] []
        ≠ .exited ⟨EXIT_FAILURE, cout, cerr⟩ := by
  refine ⟨by decide, by decide, by decide, ?_⟩
  intro cout cerr h
  have h0 : parseCorrectOptions plainLib (Opt.initial 128 45) [⟨OPT_HELP, none⟩] []
      = .exited ⟨EXIT_SUCCESS, [CoutMsg.usageMessage], []⟩ := by decide
  rw [h0] at h
  simp only [ParseResult.exited.injEq, ExitCall.mk.injEq] at h
  exact absurd h.1 (by decide)

/-- Claim C6, amended, on `correct -t 0 reads.fa`. -/
theorem parseCorrectOptions_rejects_invalid_witness :
    (∀ g ∈ [GetoptResult.mk 't' (some "0")], g.c ≠ OPT_HELP ∧ g.c ≠ OPT_VERSION)
    ∧ (∃ cerr, parseCorrectOptions plainLib (Opt.initial 128 45) [⟨'t', some "0"⟩] ["reads.fa"]
        = .exited ⟨EXIT_FAILURE, [CoutMsg.newline, CoutMsg.usageMessage], cerr⟩)
    ∧ (∀ o bms cerr,
        parseCorrectOptions plainLib (Opt.initial 128 45) [⟨'t', some "0"⟩] ["reads.fa"]
          = .returned o bms cerr →
        1 ≤ o.numThreads ∧ 1 ≤ o.numOverlapRounds ∧ 1 ≤ o.numKmerRounds ∧ 1 ≤ o.kmerLength
          ∧ 1 ≤ o.check_kmerLength ∧ 1 ≤ o.kmerThreshold) := by
  have hh : ∀ g ∈ [GetoptResult.mk 't' (some "0")], g.c ≠ OPT_HELP ∧ g.c ≠ OPT_VERSION := by
    decide
  obtain ⟨hrej, hret, _⟩ := parseCorrectOptions_rejects_invalid plainLib (Opt.initial 128 45)
    [⟨'t', some "0"⟩] ["reads.fa"]
  obtain ⟨st, hst, hbad⟩ := hrej hh
  have he : optionLoop plainLib ⟨Opt.initial 128 45, "", false, false⟩ [⟨'t', some "0"⟩]
      = .ok ⟨{ Opt.initial 128 45 with numThreads := 0 }, "", false, false⟩ := by rfl
  rw [he] at hst
  simp only [Except.ok.injEq] at hst
  subst hst
  obtain ⟨cerr, hp, _⟩ := hbad (Or.inl (by decide))
  exact ⟨hh, ⟨cerr, hp⟩, hret⟩

/-- Claim C7, evaluated on the code. `correct -K 21 reads.fa` leaves the
k-mer length at its default 31 and sets the check k-mer length to 21;
`correct -k 21 reads.fa` sets the k-mer length to 21 and leaves the check
k-mer length at 7; and `longopts` pairs `--kmer-size` with `k` and
`--check-kmer-size` with `K`, the opposite of the usage message; for every
argument text the switch stores the value extracted for `K` into
`opt::check_kmerLength` and the value extracted for `k` into
`opt::kmerLength`. -/
theorem short_options_K_and_k_are_swapped :
    (∃ o bms cerr,
      parseCorrectOptions plainLib (Opt.initial 128 45) [⟨'K', some "21"⟩] ["reads.fa"]
        = .returned o bms cerr ∧ o.kmerLength = 31 ∧ o.check_kmerLength = 21)
    ∧ (∃ o bms cerr,
      parseCorrectOptions plainLib (Opt.initial 128 45) [⟨'k', some "21"⟩] ["reads.fa"]
        = .returned o bms cerr ∧ o.kmerLength = 21 ∧ o.check_kmerLength = 7)
    ∧ longopts.lookup "kmer-size" = some 'k'
    ∧ longopts.lookup "check-kmer-size" = some 'K'
    ∧ ∀ (lib : StdLib) (st : ParseState) (arg : String),
        optionSwitch lib st 'K' arg = .ok { st with opt := { st.opt with
          check_kmerLength := lib.extractInt arg st.opt.check_kmerLength } }
        ∧ optionSwitch lib st 'k' arg = .ok { st with opt := { st.opt with
          kmerLength := lib.extractInt arg st.opt.kmerLength } } := by
  refine ⟨⟨{ Opt.initial 128 45 with
              check_kmerLength := 21, readsFile := "reads.fa", prefixName := "reads.fa",
              outFile := "reads.fa.ec.fa" }, 3, [], by decide, by decide, by decide⟩,
    ⟨{ Opt.initial 128 45 with
              kmerLength := 21, readsFile := "reads.fa", prefixName := "reads.fa",
              outFile := "reads.fa.ec.fa" }, 3, [], by decide, by decide, by decide⟩,
    by decide, by decide, ?_⟩
  intro lib st arg
  exact ⟨rfl, rfl⟩

/-- Claim C8, evaluated on the code. `correct reads.fa`, without an
`-a` or `--algorithm` option, returns with `opt::algorithm` equal to
`ECA_FMEXTEND`, which is not `ECA_KMER`; the same holds for every reads
file name and every implementation of the library routines. -/
theorem default_algorithm_is_fmextend :
    (∃ o bms cerr,
      parseCorrectOptions plainLib (Opt.initial 128 45) [] ["reads.fa"]
        = .returned o bms cerr ∧ o.algorithm = ECA_FMEXTEND)
    ∧ ECA_FMEXTEND ≠ ECA_KMER
    ∧ ∀ (lib : StdLib) (sampleRate : Int) (minOverlap : Nat) (file : String),
        ∃ o bms cerr,
          parseCorrectOptions lib (Opt.initial sampleRate minOverlap) [] [file]
            = .returned o bms cerr ∧ o.algorithm = ECA_FMEXTEND := by
  refine ⟨⟨{ Opt.initial 128 45 with
              readsFile := "reads.fa", prefixName := "reads.fa",
              outFile := "reads.fa.ec.fa" }, 3, [], by decide, by decide⟩, by decide, ?_⟩
  intro lib sampleRate minOverlap file
  exact ⟨_, _, _, rfl, rfl⟩

/-- Claim C9, evaluated on the code. `correct -a fmextend reads.fa` is
not rejected: `parseCorrectOptions` returns with `opt::algorithm` equal to
`ECA_FMEXTEND`, although `fmextend` is none of `kmer`, `hybrid`,
`overlap`; the selection block maps the name `fmextend` to `ECA_FMEXTEND`
without setting `die`. -/
theorem algorithm_fmextend_is_accepted :
    (∃ o bms cerr,
      parseCorrectOptions plainLib (Opt.initial 128 45) [⟨'a', some "fmextend"⟩] ["reads.fa"]
        = .returned o bms cerr ∧ o.algorithm = ECA_FMEXTEND)
    ∧ "fmextend" ∉ ["kmer", "hybrid", "overlap"]
    ∧ ∀ (algorithm : ErrorCorrectAlgorithm) (dc : Bool × List CerrMsg),
        determineAlgorithm "fmextend" algorithm dc = (ECA_FMEXTEND, dc) := by
  refine ⟨⟨{ Opt.initial 128 45 with
              readsFile := "reads.fa", prefixName := "reads.fa",
              outFile := "reads.fa.ec.fa" }, 3, [], by decide, by decide⟩, by decide, ?_⟩
  intro algorithm dc
  rfl

end FMOE
